import Mathlib

/-!
Shallow embedding of the comps-reveal arcade game (src/unnamed/part_000,
the `Game` class, plus src/src/main.js). Pure state: the DOM, timers and
rendering calls are dropped; `Math.random()` draws are passed in as
explicit parameters (a rational in [0,1) for a single draw, or the list
of realized (row, direction) draws for a spawn burst).
-/

namespace CompsReveal

/-- Direction of a car, the string `'left' | 'right'` in the source. -/
inductive Dir
  | left
  | right
deriving DecidableEq, Repr

/-- A car object `{ row, col, direction }`. -/
structure Car where
  row : ℤ
  col : ℤ
  dir : Dir
deriving DecidableEq, Repr

/-- `this.gridRows = 15`. -/
def gridRows : ℤ := 15

/-- `this.gridCols = 10`. -/
def gridCols : ℤ := 10

/-- The mutable fields of the `Game` instance that the game logic reads or
writes, plus `playthroughs`, the persistent counter kept in
`localStorage`. -/
structure GameState where
  isPlaying : Bool
  isWaitingForInput : Bool
  score : ℕ
  playerRow : ℤ
  playerCol : ℤ
  cars : List Car
  revealedComps : List ℕ
  playthroughs : ℕ
deriving DecidableEq, Repr

/-- Field initializers of the `Game` constructor (state fields only);
`playthroughs` is the value stored in `localStorage` at load time. -/
def newGame (playthroughs : ℕ) : GameState :=
  { isPlaying := false
    isWaitingForInput := false
    score := 0
    playerRow := 14
    playerCol := 4
    cars := []
    revealedComps := []
    playthroughs := playthroughs }

/-- `checkPermanentReveals()`: if the stored playthrough count is `>= 3`,
set `revealedComps` to `[0, 1, 2, 3]`. -/
def checkPermanentReveals (s : GameState) : GameState :=
  if 3 ≤ s.playthroughs then { s with revealedComps := [0, 1, 2, 3] } else s

/-- The state-relevant part of `init()`: it calls
`checkPermanentReveals()` (everything else is DOM setup). -/
def initGame (s : GameState) : GameState :=
  checkPermanentReveals s

/-- The starting column of a spawned car:
`direction === 'left' ? this.gridCols - 1 : 0`. -/
def spawnCol (d : Dir) : ℤ :=
  if d = Dir.left then gridCols - 1 else 0

/-- One loop iteration of `spawnCars()`: push a car at the lane edge of
`row` unless `this.cars.some(car => car.row === row)`. -/
def spawnAttempt (cars : List Car) (row : ℤ) (d : Dir) : List Car :=
  if cars.any (fun c => decide (c.row = row)) then cars
  else cars ++ [⟨row, spawnCol d, d⟩]

/-- `spawnCars()` with the realized random draws `attempts` (one
`(row, direction)` pair per loop iteration). -/
def spawnCars (attempts : List (ℤ × Dir)) (s : GameState) : GameState :=
  { s with cars := attempts.foldl (fun cs a => spawnAttempt cs a.1 a.2) s.cars }

/-- The row drawn by one spawn attempt:
`Math.floor(Math.random() * 12) + 1`, with `r` the value of
`Math.random()` (a rational in `[0, 1)`). -/
def spawnRow (r : ℚ) : ℤ :=
  ⌊r * 12⌋ + 1

/-- The number of attempts per spawn tick:
`Math.floor(Math.random() * 4) + 2`. -/
def spawnCount (r : ℚ) : ℤ :=
  ⌊r * 4⌋ + 2

/-- The state-reset part of `startGame()` (lines that assign fields;
screen/class-list manipulation dropped). -/
def startGameReset (s : GameState) : GameState :=
  { s with
    isPlaying := true
    isWaitingForInput := false
    score := 0
    playerRow := 14
    playerCol := 4
    cars := []
    revealedComps := [] }

/-- `startGame()`: reset the state, then `startCarSpawning()` runs
`spawnCars()` once immediately (with draws `attempts`). -/
def startGame (attempts : List (ℤ × Dir)) (s : GameState) : GameState :=
  spawnCars attempts (startGameReset s)

/-- One car's movement in the `startGameLoop` interval callback:
decrement (left) or increment (right) the column, wrapping at the grid
edges. -/
def moveCar (c : Car) : Car :=
  match c.dir with
  | Dir.left =>
      if c.col - 1 < 0 then { c with col := gridCols - 1 }
      else { c with col := c.col - 1 }
  | Dir.right =>
      if gridCols ≤ c.col + 1 then { c with col := 0 }
      else { c with col := c.col + 1 }

/-- `this.cars.forEach(...)` movement step of the game-loop tick. -/
def advanceCars (cars : List Car) : List Car :=
  cars.map moveCar

/-- `checkCollisions()`: some car occupies exactly the player's cell. -/
def checkCollisions (s : GameState) : Bool :=
  s.cars.any (fun c => decide (c.row = s.playerRow ∧ c.col = s.playerCol))

/-- State effect of `gameOver()`: stop playing and bump the stored
playthrough count (interval/listener/DOM teardown dropped; the permanent
reveal block there is commented out in the source). -/
def gameOver (s : GameState) : GameState :=
  { s with isPlaying := false, playthroughs := s.playthroughs + 1 }

/-- One tick of the `startGameLoop` interval: return early unless
playing, move all cars, then `gameOver()` on collision. -/
def gameTick (s : GameState) : GameState :=
  if !s.isPlaying then s
  else
    let s1 := { s with cars := advanceCars s.cars }
    if checkCollisions s1 then gameOver s1 else s1

/-- One tick of the `startCarSpawning` interval: `spawnCars()` only while
playing. -/
def spawnTick (attempts : List (ℤ × Dir)) (s : GameState) : GameState :=
  if s.isPlaying then spawnCars attempts s else s

/-- `const milestones = [10, 20, 30, 40]` in `checkCompetitionReveals`. -/
def milestones : List ℕ := [10, 20, 30, 40]

/-- One iteration of the `milestones.forEach((milestone, index) => ...)`
body: on an exact score match of an unrevealed index, append the index
and run `showRevealModal` (which calls `pauseGame()` and sets
`isWaitingForInput`). `p` is the `(index, milestone)` pair. -/
def revealStep (s : GameState) (p : ℕ × ℕ) : GameState :=
  if s.score = p.2 ∧ p.1 ∉ s.revealedComps then
    { s with
      revealedComps := s.revealedComps ++ [p.1]
      isPlaying := false
      isWaitingForInput := true }
  else s

/-- `checkCompetitionReveals()`: fold `revealStep` over the indexed
milestone table. -/
def checkCompetitionReveals (s : GameState) : GameState :=
  milestones.enum.foldl revealStep s

/-- `resumeGame()`: clear the waiting flag, set playing, and restart the
loops — `startCarSpawning()` spawns once immediately with draws
`attempts`. -/
def resumeGame (attempts : List (ℤ × Dir)) (s : GameState) : GameState :=
  spawnCars attempts { s with isWaitingForInput := false, isPlaying := true }

/-- A keyboard event, reduced to the arrow keys the `switch` handles;
`other` is any key hitting the `default: return` branch. -/
inductive Key
  | up
  | down
  | left
  | right
  | other
deriving DecidableEq, Repr

/-- The `switch(event.key)` of `handleKeyPress`: the candidate
`(newRow, newCol)`, clamped against the grid bounds; `none` for the
`default: return` branch. -/
def candidate (key : Key) (s : GameState) : Option (ℤ × ℤ) :=
  match key with
  | Key.up => some (max 0 (s.playerRow - 1), s.playerCol)
  | Key.down => some (min (gridRows - 1) (s.playerRow + 1), s.playerCol)
  | Key.left => some (s.playerRow, max 0 (s.playerCol - 1))
  | Key.right => some (s.playerRow, min (gridCols - 1) (s.playerCol + 1))
  | Key.other => none

/-- The first half of the committed-move branch of `handleKeyPress`:
assign the new position, and if the row strictly decreased, increment the
score and run `checkCompetitionReveals()`. -/
def moveScored (nr nc : ℤ) (s : GameState) : GameState :=
  let s1 := { s with playerRow := nr, playerCol := nc }
  if nr < s.playerRow then
    checkCompetitionReveals { s1 with score := s1.score + 1 }
  else s1

/-- The infinite-scroll block of `handleKeyPress`, applied to the car
list: add 10 to every row, then drop cars whose row reached `gridRows`. -/
def shiftCars (cars : List Car) : List Car :=
  (cars.map (fun c => { c with row := c.row + 10 })).filter
    (fun c => decide (c.row < gridRows))

/-- The unconditional body of the scroll shift: player down by 10 rows
and `shiftCars` on the car list. -/
def shiftFrame (s : GameState) : GameState :=
  { s with playerRow := s.playerRow + 10, cars := shiftCars s.cars }

/-- The guarded scroll shift: runs `shiftFrame` when
`this.score > 13 && this.playerRow < 5`, reading the already-updated
row and score. -/
def scrollShift (s : GameState) : GameState :=
  if 13 < s.score ∧ s.playerRow < 5 then shiftFrame s else s

/-- The whole committed-move branch of `handleKeyPress`: move and score,
scroll-shift, then `gameOver()` if `checkCollisions()` reports true. -/
def commitMove (nr nc : ℤ) (s : GameState) : GameState :=
  let s3 := scrollShift (moveScored nr nc s)
  if checkCollisions s3 then gameOver s3 else s3

/-- `handleKeyPress(event)`: resume if waiting for input, ignore when not
playing, ignore unknown keys, no-op when the clamped candidate equals the
current position, otherwise commit the move. -/
def handleKeyPress (key : Key) (attempts : List (ℤ × Dir)) (s : GameState) :
    GameState :=
  if s.isWaitingForInput then resumeGame attempts s
  else if !s.isPlaying then s
  else
    match candidate key s with
    | none => s
    | some (nr, nc) =>
        if nr = s.playerRow ∧ nc = s.playerCol then s
        else commitMove nr nc s

/-- Whether `handleKeyPress` commits a strictly-upward move: playing, not
paused, with a candidate that differs from the current position and has a
strictly smaller row. -/
def upCommit (key : Key) (s : GameState) : Bool :=
  !s.isWaitingForInput && s.isPlaying &&
    match candidate key s with
    | some p =>
        decide (¬(p.1 = s.playerRow ∧ p.2 = s.playerCol)) &&
          decide (p.1 < s.playerRow)
    | none => false

/-- The method names defined on the `Game` class body (the constructor
itself is not reachable via `this.name`). -/
def gameMethods : List String :=
  ["init", "checkPermanentReveals", "startGame", "renderGrid",
   "renderPlayer", "renderCars", "getCell", "handleKeyPress",
   "checkCollisions", "startGameLoop", "startCarSpawning", "spawnCars",
   "updateScore", "checkCompetitionReveals", "showRevealModal",
   "pauseGame", "resumeGame", "renderCompetitionCards", "gameOver"]

/-- The method names whose `.bind(this)` the constructor evaluates, in
source order (lines 69 to 72). -/
def constructorBinds : List String :=
  ["handleKeyPress", "handleTouchStart", "handleTouchEnd", "checkCollisions"]

/-- JavaScript semantics of the constructor's bind block: reading
`.bind` off `this.m` throws a `TypeError` at the first `m` that is not a
method of the class (the property access yields `undefined`). Returns the
first missing name, or `none` if all binds succeed. -/
def runConstructorBinds : Option String :=
  constructorBinds.find? (fun m => !gameMethods.contains m)

/-- Outcome of the `DOMContentLoaded` handler in main.js. -/
inductive LoadResult
  | threwTypeError (prop : String)
  | initialized
deriving DecidableEq, Repr

/-- The `DOMContentLoaded` handler of main.js: `new Game()` then
`game.init()`; a `TypeError` in the constructor propagates and `init` is
never reached. -/
def domContentLoaded : LoadResult :=
  match runConstructorBinds with
  | some m => LoadResult.threwTypeError m
  | none => LoadResult.initialized

/-- Car lists reachable from a run start through spawn attempts,
advance ticks and scroll shifts. -/
inductive ReachableCars : List Car → Prop
  | start : ReachableCars []
  | spawn (cs : List Car) (row : ℤ) (d : Dir) :
      ReachableCars cs → ReachableCars (spawnAttempt cs row d)
  | advance (cs : List Car) :
      ReachableCars cs → ReachableCars (advanceCars cs)
  | shift (cs : List Car) :
      ReachableCars cs → ReachableCars (shiftCars cs)

/-- A mid-run state used to evaluate the scroll-shift theorems on a
concrete input: playing, score 14, player at (4, 4), two cars. -/
def midRunState : GameState :=
  { isPlaying := true
    isWaitingForInput := false
    score := 14
    playerRow := 4
    playerCol := 4
    cars := [⟨2, 0, Dir.right⟩, ⟨7, 3, Dir.left⟩]
    revealedComps := []
    playthroughs := 0 }

/-- A near-top state with a car on the player's cell, used to evaluate
the collision-preservation theorem on a concrete input. -/
def collisionState : GameState :=
  { isPlaying := true
    isWaitingForInput := false
    score := 20
    playerRow := 3
    playerCol := 4
    cars := [⟨3, 4, Dir.left⟩, ⟨9, 1, Dir.right⟩]
    revealedComps := [0]
    playthroughs := 0 }

/-- The fresh-run state (player at the bottom edge), used to evaluate the
blocked-move no-op theorem on a concrete input. -/
def freshRunState : GameState :=
  startGameReset (newGame 0)

/-- Lane exclusivity: no two cars of the list share a row. -/
def rowsDistinct (cars : List Car) : Prop :=
  cars.Pairwise (fun a b => a.row ≠ b.row)

/-! ### Preservation lemmas for the milestone fold -/

theorem revealStep_score (s : GameState) (p : ℕ × ℕ) :
    (revealStep s p).score = s.score := by
  unfold revealStep; split <;> rfl

theorem revealStep_playerRow (s : GameState) (p : ℕ × ℕ) :
    (revealStep s p).playerRow = s.playerRow := by
  unfold revealStep; split <;> rfl

theorem revealStep_playerCol (s : GameState) (p : ℕ × ℕ) :
    (revealStep s p).playerCol = s.playerCol := by
  unfold revealStep; split <;> rfl

theorem revealStep_cars (s : GameState) (p : ℕ × ℕ) :
    (revealStep s p).cars = s.cars := by
  unfold revealStep; split <;> rfl

theorem revealStep_playthroughs (s : GameState) (p : ℕ × ℕ) :
    (revealStep s p).playthroughs = s.playthroughs := by
  unfold revealStep; split <;> rfl

theorem foldl_revealStep_score (l : List (ℕ × ℕ)) (s : GameState) :
    (l.foldl revealStep s).score = s.score := by
  induction l generalizing s with
  | nil => rfl
  | cons p l ih => simp [List.foldl, ih, revealStep_score]

theorem foldl_revealStep_playerRow (l : List (ℕ × ℕ)) (s : GameState) :
    (l.foldl revealStep s).playerRow = s.playerRow := by
  induction l generalizing s with
  | nil => rfl
  | cons p l ih => simp [List.foldl, ih, revealStep_playerRow]

theorem foldl_revealStep_playerCol (l : List (ℕ × ℕ)) (s : GameState) :
    (l.foldl revealStep s).playerCol = s.playerCol := by
  induction l generalizing s with
  | nil => rfl
  | cons p l ih => simp [List.foldl, ih, revealStep_playerCol]

theorem foldl_revealStep_cars (l : List (ℕ × ℕ)) (s : GameState) :
    (l.foldl revealStep s).cars = s.cars := by
  induction l generalizing s with
  | nil => rfl
  | cons p l ih => simp [List.foldl, ih, revealStep_cars]

theorem foldl_revealStep_playthroughs (l : List (ℕ × ℕ)) (s : GameState) :
    (l.foldl revealStep s).playthroughs = s.playthroughs := by
  induction l generalizing s with
  | nil => rfl
  | cons p l ih => simp [List.foldl, ih, revealStep_playthroughs]

theorem checkCompetitionReveals_score (s : GameState) :
    (checkCompetitionReveals s).score = s.score :=
  foldl_revealStep_score _ _

theorem checkCompetitionReveals_playerRow (s : GameState) :
    (checkCompetitionReveals s).playerRow = s.playerRow :=
  foldl_revealStep_playerRow _ _

theorem checkCompetitionReveals_playerCol (s : GameState) :
    (checkCompetitionReveals s).playerCol = s.playerCol :=
  foldl_revealStep_playerCol _ _

theorem checkCompetitionReveals_cars (s : GameState) :
    (checkCompetitionReveals s).cars = s.cars :=
  foldl_revealStep_cars _ _

/-! ### Claim theorems -/

/-- Claim C1: the `DOMContentLoaded` handler constructs a `Game`, and the
constructor throws a `TypeError` at `this.handleTouchStart.bind(this)`
before `init` is ever reached: neither `handleTouchStart` nor
`handleTouchEnd` is a method of the class, while the first bound name
`handleKeyPress` is. -/
theorem constructor_throws_before_init :
    domContentLoaded = LoadResult.threwTypeError "handleTouchStart" ∧
    "handleTouchStart" ∉ gameMethods ∧
    "handleTouchEnd" ∉ gameMethods ∧
    "handleKeyPress" ∈ gameMethods := by
  refine ⟨rfl, ?_, ?_, ?_⟩ <;> decide

/-- Claim C2 (code bug): the spawn-row draw
`Math.floor(Math.random() * 12) + 1` always lands in `[1, 12]`; lane row
13 is never produced, although the spec (and the code's own comment
`// Rows 1-13`) promises the full range `[1, 13]`. -/
theorem spawnRow_never_13 (r : ℚ) (h0 : 0 ≤ r) (h1 : r < 1) :
    1 ≤ spawnRow r ∧ spawnRow r ≤ 12 ∧ spawnRow r ≠ 13 := by
  unfold spawnRow
  have hf0 : 0 ≤ ⌊r * 12⌋ := by
    refine Int.le_floor.mpr ?_
    push_cast
    exact mul_nonneg h0 (by norm_num)
  have hf1 : ⌊r * 12⌋ < 12 := by
    refine Int.floor_lt.mpr ?_
    push_cast
    linarith
  refine ⟨by omega, by omega, by omega⟩

/-- Witness for C2: the draw `r = 1/2` satisfies the hypotheses and the
conclusion. -/
theorem spawnRow_never_13_witness :
    (0 : ℚ) ≤ 1 / 2 ∧ (1 / 2 : ℚ) < 1 ∧
      (1 ≤ spawnRow (1 / 2) ∧ spawnRow (1 / 2) ≤ 12 ∧ spawnRow (1 / 2) ≠ 13) :=
  ⟨by norm_num, by norm_num,
    spawnRow_never_13 (1 / 2) (by norm_num) (by norm_num)⟩

/-- Claim C3 counterexample: with a stored playthrough count of 3, the
load-time pre-seed fills all four indices, yet immediately after
`startGame` the revealed set is empty — it does not still contain the
four indices as the claim states. -/
theorem startGame_discards_preseed :
    (initGame (newGame 3)).revealedComps = [0, 1, 2, 3] ∧
    (startGame [] (initGame (newGame 3))).revealedComps = [] ∧
    0 ∉ (startGame [] (initGame (newGame 3))).revealedComps := by
  refine ⟨rfl, rfl, ?_⟩
  decide

/-- Claim C3 amended: `startGame` unconditionally clears the
revealed-milestones set (the `checkPermanentReveals()` call there is
commented out), so after `startGame` the set is empty regardless of the
play count read at load time. -/
theorem startGame_clears_revealedComps (attempts : List (ℤ × Dir))
    (s : GameState) :
    (startGame attempts s).revealedComps = [] := rfl

theorem moveScored_playerRow (nr nc : ℤ) (s : GameState) :
    (moveScored nr nc s).playerRow = nr := by
  unfold moveScored
  split
  · rw [checkCompetitionReveals_playerRow]
  · rfl

theorem moveScored_playerCol (nr nc : ℤ) (s : GameState) :
    (moveScored nr nc s).playerCol = nc := by
  unfold moveScored
  split
  · rw [checkCompetitionReveals_playerCol]
  · rfl

theorem moveScored_cars (nr nc : ℤ) (s : GameState) :
    (moveScored nr nc s).cars = s.cars := by
  unfold moveScored
  split
  · rw [checkCompetitionReveals_cars]
  · rfl

/-- On the commit branch with the given candidate, `handleKeyPress`
reduces to `commitMove`. -/
theorem handleKeyPress_commit (key : Key) (attempts : List (ℤ × Dir))
    (s : GameState) (nr nc : ℤ)
    (hw : s.isWaitingForInput = false) (hp : s.isPlaying = true)
    (hc : candidate key s = some (nr, nc))
    (hne : ¬(nr = s.playerRow ∧ nc = s.playerCol)) :
    handleKeyPress key attempts s = commitMove nr nc s := by
  simp [handleKeyPress, hw, hp, hc, hne]

/-- Claim C4: whenever a committed move satisfies the scroll-shift
condition (updated score `> 13` and updated row `< 5`), the player's row
after `handleKeyPress` is the pre-shift row plus 10 and stays below
`gridRows`; the car list is the pre-shift car list with every row raised
by 10 and every car whose shifted row reached `gridRows` removed; every
retained car has row `< gridRows`. -/
theorem scroll_shift_on_commit (key : Key) (attempts : List (ℤ × Dir))
    (s : GameState) (nr nc : ℤ)
    (hw : s.isWaitingForInput = false) (hp : s.isPlaying = true)
    (hc : candidate key s = some (nr, nc))
    (hne : ¬(nr = s.playerRow ∧ nc = s.playerCol))
    (hsc : 13 < (moveScored nr nc s).score)
    (hrow : (moveScored nr nc s).playerRow < 5) :
    (handleKeyPress key attempts s).playerRow
        = (moveScored nr nc s).playerRow + 10 ∧
    (handleKeyPress key attempts s).playerRow < gridRows ∧
    (handleKeyPress key attempts s).cars
        = ((moveScored nr nc s).cars.map
            (fun c => { c with row := c.row + 10 })).filter
            (fun c => decide (c.row < gridRows)) ∧
    (∀ c ∈ (handleKeyPress key attempts s).cars, c.row < gridRows) := by
  have hh := handleKeyPress_commit key attempts s nr nc hw hp hc hne
  have hshift : scrollShift (moveScored nr nc s)
      = shiftFrame (moveScored nr nc s) := by
    unfold scrollShift
    rw [if_pos]
    exact ⟨hsc, hrow⟩
  have hcm : commitMove nr nc s
      = if checkCollisions (shiftFrame (moveScored nr nc s)) then
          gameOver (shiftFrame (moveScored nr nc s))
        else shiftFrame (moveScored nr nc s) := by
    show (if checkCollisions (scrollShift (moveScored nr nc s)) then
        gameOver (scrollShift (moveScored nr nc s))
      else scrollShift (moveScored nr nc s)) = _
    rw [hshift]
  have hrowEq : (commitMove nr nc s).playerRow
      = (moveScored nr nc s).playerRow + 10 := by
    rw [hcm]; split <;> rfl
  have hcarsEq : (commitMove nr nc s).cars
      = shiftCars (moveScored nr nc s).cars := by
    rw [hcm]; split <;> rfl
  have hg : gridRows = 15 := rfl
  refine ⟨by rw [hh, hrowEq], ?_, by rw [hh, hcarsEq]; rfl, ?_⟩
  · rw [hh, hrowEq]
    omega
  · intro c hcmem
    rw [hh, hcarsEq] at hcmem
    unfold shiftCars at hcmem
    have hmem := (List.mem_filter.mp hcmem).2
    simp only [decide_eq_true_eq] at hmem
    exact hmem

/-- Witness for C4: an upward move from `midRunState` (score 14, row 4)
commits, satisfies the shift condition, and the conclusion holds. -/
theorem scroll_shift_on_commit_witness :
    (midRunState.isWaitingForInput = false ∧ midRunState.isPlaying = true ∧
     candidate Key.up midRunState = some (3, 4) ∧
     ¬((3 : ℤ) = midRunState.playerRow ∧ (4 : ℤ) = midRunState.playerCol) ∧
     13 < (moveScored 3 4 midRunState).score ∧
     (moveScored 3 4 midRunState).playerRow < 5) ∧
    ((handleKeyPress Key.up [] midRunState).playerRow
        = (moveScored 3 4 midRunState).playerRow + 10 ∧
     (handleKeyPress Key.up [] midRunState).playerRow < gridRows ∧
     (handleKeyPress Key.up [] midRunState).cars
        = ((moveScored 3 4 midRunState).cars.map
            (fun c => { c with row := c.row + 10 })).filter
            (fun c => decide (c.row < gridRows)) ∧
     (∀ c ∈ (handleKeyPress Key.up [] midRunState).cars, c.row < gridRows)) :=
  ⟨⟨rfl, rfl, by decide, by decide, by decide, by decide⟩,
    scroll_shift_on_commit Key.up [] midRunState 3 4 rfl rfl (by decide)
      (by decide) (by decide) (by decide)⟩

/-- Claim C5: when the player's row is `< 5` (the shift precondition),
shifting the frame — player row `+ 10`, every car row `+ 10`, cars at or
past `gridRows` discarded — leaves the collision predicate unchanged. -/
theorem shiftFrame_preserves_collision (s : GameState)
    (h : s.playerRow < 5) :
    checkCollisions (shiftFrame s) = checkCollisions s := by
  have hg : gridRows = 15 := rfl
  unfold checkCollisions shiftFrame shiftCars
  rw [Bool.eq_iff_iff]
  simp only [List.any_eq_true, List.mem_filter, List.mem_map,
    decide_eq_true_eq]
  constructor
  · rintro ⟨c, ⟨⟨⟨r0, l0, d0⟩, hc0, rfl⟩, hlt⟩, hrow, hcol⟩
    dsimp only at hlt hrow hcol
    refine ⟨⟨r0, l0, d0⟩, hc0, ?_, hcol⟩
    show r0 = s.playerRow
    omega
  · rintro ⟨⟨r0, l0, d0⟩, hc0, hrow, hcol⟩
    dsimp only at hrow hcol
    refine ⟨⟨r0 + 10, l0, d0⟩, ⟨⟨⟨r0, l0, d0⟩, hc0, rfl⟩, ?_⟩, ?_, hcol⟩
    · dsimp only
      omega
    · dsimp only
      omega

/-- Witness for C5: `collisionState` (player row 3, a car on the player's
cell) satisfies the precondition and the conclusion. -/
theorem shiftFrame_preserves_collision_witness :
    collisionState.playerRow < 5 ∧
    checkCollisions (shiftFrame collisionState)
      = checkCollisions collisionState :=
  ⟨by decide, shiftFrame_preserves_collision collisionState (by decide)⟩

/-- Claim C9: one advance tick keeps a car's row and moves its column one
step in its direction, wrapping modulo `gridCols`: column 0 moving left
becomes `gridCols - 1`, column `gridCols - 1` moving right becomes 0, and
interior columns move by exactly one. -/
theorem moveCar_wraps (c : Car) (h0 : 0 ≤ c.col) (h1 : c.col < gridCols) :
    (moveCar c).row = c.row ∧
    (moveCar c).col
      = (if c.dir = Dir.left then c.col - 1 else c.col + 1) % gridCols := by
  have hg : gridCols = 10 := rfl
  obtain ⟨row, col, dir⟩ := c
  dsimp only at h0 h1 ⊢
  rw [hg] at h1
  interval_cases col <;> cases dir <;> exact ⟨rfl, rfl⟩

/-- Witness for C9: the car at `(5, 0)` moving left wraps to column
`gridCols - 1 = 9` and keeps its row. -/
theorem moveCar_wraps_witness :
    (0 ≤ (⟨5, 0, Dir.left⟩ : Car).col ∧
      (⟨5, 0, Dir.left⟩ : Car).col < gridCols) ∧
    ((moveCar ⟨5, 0, Dir.left⟩).row = (⟨5, 0, Dir.left⟩ : Car).row ∧
     (moveCar ⟨5, 0, Dir.left⟩).col
       = (if (⟨5, 0, Dir.left⟩ : Car).dir = Dir.left then
            (⟨5, 0, Dir.left⟩ : Car).col - 1
          else (⟨5, 0, Dir.left⟩ : Car).col + 1) % gridCols) :=
  ⟨⟨by decide, by decide⟩, moveCar_wraps ⟨5, 0, Dir.left⟩ (by decide) (by decide)⟩

/-- Claim C10: when the clamped candidate equals the current position
(an edge-blocked move intent while playing), `handleKeyPress` is a
complete no-op: the whole game state — position, score, cars, revealed
set, run flags, counter — is returned unchanged, so no collision check
outcome or game-over transition can occur. -/
theorem blocked_move_noop (key : Key) (attempts : List (ℤ × Dir))
    (s : GameState)
    (hw : s.isWaitingForInput = false) (hp : s.isPlaying = true)
    (hc : candidate key s = some (s.playerRow, s.playerCol)) :
    handleKeyPress key attempts s = s := by
  simp [handleKeyPress, hw, hp, hc]

/-- Witness for C10: pressing down at the bottom edge of `freshRunState`
is a no-op. -/
theorem blocked_move_noop_witness :
    (freshRunState.isWaitingForInput = false ∧
     freshRunState.isPlaying = true ∧
     candidate Key.down freshRunState
       = some (freshRunState.playerRow, freshRunState.playerCol)) ∧
    handleKeyPress Key.down [] freshRunState = freshRunState :=
  ⟨⟨rfl, rfl, by decide⟩,
    blocked_move_noop Key.down [] freshRunState rfl rfl (by decide)⟩

/-! ### Lane exclusivity -/

theorem moveCar_row (c : Car) : (moveCar c).row = c.row := by
  obtain ⟨r, l, d⟩ := c
  cases d <;> dsimp only [moveCar] <;> split <;> rfl

theorem rowsDistinct_spawnAttempt (cs : List Car) (row : ℤ) (d : Dir)
    (h : rowsDistinct cs) : rowsDistinct (spawnAttempt cs row d) := by
  unfold spawnAttempt
  split
  · exact h
  case isFalse hno =>
    unfold rowsDistinct at h ⊢
    rw [List.pairwise_append]
    refine ⟨h, List.pairwise_singleton _ _, ?_⟩
    intro a ha b hb
    rw [List.mem_singleton] at hb
    subst hb
    intro heq
    apply hno
    rw [List.any_eq_true]
    exact ⟨a, ha, decide_eq_true heq⟩

theorem rowsDistinct_advanceCars (cs : List Car) (h : rowsDistinct cs) :
    rowsDistinct (advanceCars cs) := by
  unfold rowsDistinct at h ⊢
  unfold advanceCars
  rw [List.pairwise_map]
  exact h.imp (fun hab => by rw [moveCar_row, moveCar_row]; exact hab)

theorem rowsDistinct_shiftCars (cs : List Car) (h : rowsDistinct cs) :
    rowsDistinct (shiftCars cs) := by
  unfold rowsDistinct at h ⊢
  unfold shiftCars
  refine List.Pairwise.filter _ ?_
  rw [List.pairwise_map]
  refine h.imp ?_
  intro a b hab
  dsimp only
  omega

/-- Claim C6: in every car list reachable through run starts, spawn
attempts, advance ticks and scroll shifts, no lane row holds more than
one car: `spawnAttempt` skips occupied rows, advancing changes only
columns, and the uniform `+10` shift preserves row distinctness. -/
theorem reachable_rowsDistinct (cs : List Car) (h : ReachableCars cs) :
    rowsDistinct cs := by
  induction h with
  | start => exact List.Pairwise.nil
  | spawn cs row d _ ih => exact rowsDistinct_spawnAttempt cs row d ih
  | advance cs _ ih => exact rowsDistinct_advanceCars cs ih
  | shift cs _ ih => exact rowsDistinct_shiftCars cs ih

/-- Witness for C6: two spawn attempts into the same row 3 (the second is
skipped) yield a reachable list with pairwise-distinct rows. -/
theorem reachable_rowsDistinct_witness :
    rowsDistinct (spawnAttempt (spawnAttempt [] 3 Dir.left) 3 Dir.right) :=
  reachable_rowsDistinct _
    (ReachableCars.spawn _ 3 Dir.right
      (ReachableCars.spawn _ 3 Dir.left ReachableCars.start))

/-! ### Milestone idempotence -/

theorem revealStep_nodup (s : GameState) (p : ℕ × ℕ)
    (h : s.revealedComps.Nodup) : (revealStep s p).revealedComps.Nodup := by
  unfold revealStep
  split
  case isTrue hcond =>
    dsimp only
    rw [List.nodup_append]
    exact ⟨h, List.nodup_singleton _, by
      rw [List.disjoint_singleton]
      exact hcond.2⟩
  case isFalse _ => exact h

theorem revealStep_mem_mono (s : GameState) (p : ℕ × ℕ) (i : ℕ)
    (h : i ∈ s.revealedComps) : i ∈ (revealStep s p).revealedComps := by
  unfold revealStep
  split
  · dsimp only
    exact List.mem_append_left _ h
  · exact h

theorem revealStep_count (s : GameState) (p : ℕ × ℕ) (i : ℕ)
    (h : i ∈ s.revealedComps) :
    (revealStep s p).revealedComps.count i = s.revealedComps.count i := by
  unfold revealStep
  split
  case isTrue hcond =>
    dsimp only
    rw [List.count_append]
    have hne : p.1 ≠ i := fun he => hcond.2 (he ▸ h)
    simp [List.count_singleton, hne, Ne.symm hne]
  case isFalse _ => rfl

theorem revealStep_mem_src (s : GameState) (p : ℕ × ℕ) (i : ℕ)
    (h : i ∈ (revealStep s p).revealedComps) :
    i ∈ s.revealedComps ∨ (i = p.1 ∧ s.score = p.2) := by
  unfold revealStep at h
  split at h
  case isTrue hcond =>
    dsimp only at h
    rcases List.mem_append.mp h with h1 | h1
    · exact Or.inl h1
    · rw [List.mem_singleton] at h1
      exact Or.inr ⟨h1, hcond.1⟩
  case isFalse _ => exact Or.inl h

theorem foldl_revealStep_nodup (l : List (ℕ × ℕ)) (s : GameState)
    (h : s.revealedComps.Nodup) :
    (l.foldl revealStep s).revealedComps.Nodup := by
  induction l generalizing s with
  | nil => exact h
  | cons p l ih => exact ih _ (revealStep_nodup _ _ h)

theorem foldl_revealStep_count (l : List (ℕ × ℕ)) (s : GameState) (i : ℕ)
    (h : i ∈ s.revealedComps) :
    (l.foldl revealStep s).revealedComps.count i
      = s.revealedComps.count i := by
  induction l generalizing s with
  | nil => rfl
  | cons p l ih =>
      rw [List.foldl_cons, ih _ (revealStep_mem_mono _ _ _ h),
        revealStep_count _ _ _ h]

theorem foldl_revealStep_mem_src (l : List (ℕ × ℕ)) (s : GameState) (i : ℕ)
    (h : i ∈ (l.foldl revealStep s).revealedComps) :
    i ∈ s.revealedComps ∨ ∃ p ∈ l, i = p.1 ∧ s.score = p.2 := by
  induction l generalizing s with
  | nil => exact Or.inl h
  | cons q l ih =>
      rw [List.foldl_cons] at h
      rcases ih _ h with h1 | ⟨p, hp, hip, hsp⟩
      · rcases revealStep_mem_src _ _ _ h1 with h2 | h2
        · exact Or.inl h2
        · exact Or.inr ⟨q, List.mem_cons_self _ _, h2⟩
      · refine Or.inr ⟨p, List.mem_cons_of_mem _ hp, hip, ?_⟩
        rw [revealStep_score] at hsp
        exact hsp

/-- Claim C7: within a run each milestone index fires at most once: the
milestone check keeps the revealed list duplicate-free, never re-appends
an index already present (counts are preserved), and any index it adds
satisfies `score = milestones[i]` exactly. -/
theorem milestones_fire_once (s : GameState)
    (hnd : s.revealedComps.Nodup) :
    (checkCompetitionReveals s).revealedComps.Nodup ∧
    (∀ i ∈ s.revealedComps,
      (checkCompetitionReveals s).revealedComps.count i
        = s.revealedComps.count i) ∧
    (∀ i ∈ (checkCompetitionReveals s).revealedComps,
      i ∈ s.revealedComps ∨
        (i < milestones.length ∧ s.score = milestones.getD i 0)) := by
  refine ⟨foldl_revealStep_nodup _ _ hnd,
    fun i hi => foldl_revealStep_count _ _ _ hi, ?_⟩
  intro i hi
  rcases foldl_revealStep_mem_src _ _ _ hi with h1 | ⟨p, hp, hip, hsp⟩
  · exact Or.inl h1
  · right
    subst hip
    fin_cases hp <;> exact ⟨by decide, by simpa using hsp⟩

/-- Witness for C7: `collisionState` (score 20, revealed set `[0]`)
satisfies the hypothesis and the conclusion. -/
theorem milestones_fire_once_witness :
    collisionState.revealedComps.Nodup ∧
    ((checkCompetitionReveals collisionState).revealedComps.Nodup ∧
     (∀ i ∈ collisionState.revealedComps,
       (checkCompetitionReveals collisionState).revealedComps.count i
         = collisionState.revealedComps.count i) ∧
     (∀ i ∈ (checkCompetitionReveals collisionState).revealedComps,
       i ∈ collisionState.revealedComps ∨
         (i < milestones.length ∧
           collisionState.score = milestones.getD i 0))) :=
  ⟨by decide, milestones_fire_once collisionState (by decide)⟩

/-! ### Score monotonicity -/

theorem gameOver_score (s : GameState) : (gameOver s).score = s.score := rfl

theorem scrollShift_score (s : GameState) :
    (scrollShift s).score = s.score := by
  unfold scrollShift
  split <;> rfl

theorem moveScored_score (nr nc : ℤ) (s : GameState) :
    (moveScored nr nc s).score
      = if nr < s.playerRow then s.score + 1 else s.score := by
  unfold moveScored
  split
  case isTrue h => rw [checkCompetitionReveals_score]
  case isFalse h => rfl

theorem commitMove_score (nr nc : ℤ) (s : GameState) :
    (commitMove nr nc s).score = (moveScored nr nc s).score := by
  unfold commitMove
  dsimp only
  split
  · rw [gameOver_score, scrollShift_score]
  · rw [scrollShift_score]

/-- Claim C8: the score never decreases; `handleKeyPress` raises it by
exactly 1 precisely on a committed move whose new row is strictly below
the old row (`upCommit`), and otherwise leaves it unchanged; obstacle
ticks, spawn ticks and the scroll shift never change it. -/
theorem score_monotone (key : Key) (attempts : List (ℤ × Dir))
    (s : GameState) :
    (handleKeyPress key attempts s).score
      = s.score + (if upCommit key s then 1 else 0) ∧
    s.score ≤ (handleKeyPress key attempts s).score ∧
    (gameTick s).score = s.score ∧
    (spawnTick attempts s).score = s.score ∧
    (scrollShift s).score = s.score := by
  have h1 : (gameTick s).score = s.score := by
    unfold gameTick
    split
    · rfl
    · dsimp only
      split <;> rfl
  have h2 : (spawnTick attempts s).score = s.score := by
    unfold spawnTick
    split <;> rfl
  have hmain : (handleKeyPress key attempts s).score
      = s.score + (if upCommit key s then 1 else 0) := by
    by_cases hw : s.isWaitingForInput = true
    · have hres : handleKeyPress key attempts s = resumeGame attempts s := by
        unfold handleKeyPress
        rw [if_pos hw]
      have hup : upCommit key s = false := by
        unfold upCommit
        rw [hw]
        rfl
      rw [hres, hup]
      simp [resumeGame, spawnCars]
    · rw [Bool.not_eq_true] at hw
      by_cases hp : s.isPlaying = true
      · cases hcand : candidate key s with
        | none =>
            have hres : handleKeyPress key attempts s = s := by
              simp [handleKeyPress, hw, hp, hcand]
            have hup : upCommit key s = false := by
              simp [upCommit, hcand]
            rw [hres, hup]
            simp
        | some p =>
            obtain ⟨nr, nc⟩ := p
            by_cases hne : nr = s.playerRow ∧ nc = s.playerCol
            · have hres : handleKeyPress key attempts s = s := by
                simp [handleKeyPress, hw, hp, hcand, hne]
              have hup : upCommit key s = false := by
                simp [upCommit, hcand, hne]
              rw [hres, hup]
              simp
            · have hres :=
                handleKeyPress_commit key attempts s nr nc hw hp hcand hne
              have hup : upCommit key s = decide (nr < s.playerRow) := by
                simp [upCommit, hcand, hw, hp, hne]
              rw [hres, commitMove_score, moveScored_score, hup]
              by_cases hlt : nr < s.playerRow
              · simp [hlt]
              · simp [hlt]
      · rw [Bool.not_eq_true] at hp
        have hres : handleKeyPress key attempts s = s := by
          simp [handleKeyPress, hw, hp]
        have hup : upCommit key s = false := by
          simp [upCommit, hw, hp]
        rw [hres, hup]
        simp
  refine ⟨hmain, ?_, h1, h2, scrollShift_score s⟩
  rw [hmain]
  split <;> omega

end CompsReveal
